import Mathlib

/-!
Verification of the fault-report pipeline of `src/main.py` (VS_Pandas_Top_10).

The development shallowly embeds `process_faults_file` and its helpers:

* a raw CSV row (after `pd.to_numeric(..., errors='coerce')` has been applied
  to the two numeric columns) is a `RawRecord`: the four text cells are
  `Option String` (`none` models a missing cell, pandas `NaN`), the two
  numeric cells are `Option Int` (`none` models a cell `to_numeric` could not
  coerce).  Numeric cell values are modelled as exact integers: every numeric
  scenario of the specification is integer valued and the claims under study
  concern sums and comparisons, not float rounding.
* `normalize` models lines 70-84 of `src/main.py`: dropping rows whose
  numeric cells failed coercion, the `astype(str)`/`fillna` treatment of the
  four text columns (note that `astype(str)` stringifies a missing cell to
  "nan" before `fillna` runs), and the derived `Fault_Description` column.
* `aggregateBy` models the two `groupby(...).agg(...).reset_index()` calls
  (lines 87-93): pandas groups with `sort=True`, so the output rows are
  sorted ascending by the five-field key; each distinct key yields one row
  whose value is the plain sum of the metric over the group.
* `sortedUniqueFaultsPerStation` models lines 96-97 (`df.groupby(
  'D_MachineName').size()` over the row-level frame, then a descending sort
  by the count) and `sortedTotalDurationPerStation` models lines 100-101.
* `top10` models lines 115-120: filter the aggregated frame to one machine,
  `sort_values(ascending=False)`, `head(10)`.  `sort_values` runs numpy's
  default quicksort (introsort), whose order among tied rows is unspecified;
  the model sorts with insertion sort, and the general theorems below use
  only the properties every correct descending sort shares — row count,
  sortedness, membership and the sorted value sequence — never the model's
  tie order.  The concrete inputs evaluated below have fewer than 16 rows
  per machine, where numpy's introsort is itself the stable insertion sort.
* `sanitize_sheet_name` models lines 13-23, and `process_faults_file`
  assembles the `Report`: the per-machine sheets and index entries in loop
  order (lines 114-159), the two summary sheets, the workbook's sheet order
  as created by the write pass (machine sheets first, then "Index",
  "Unique Faults", "Total Duration"), and the final openpyxl step of
  lines 200-201, which assigns `book.active` (the index of the selected
  sheet) and does not move any sheet.
-/

namespace VSPandas

/-! ### String and key orders

pandas compares string cells by Unicode code point.  Core `String.lt` is
implemented by well-founded recursion on iterators, which the kernel cannot
evaluate, so the development compares character lists instead, through the
lexicographic order Mathlib puts on lists (the base order on `Char` is by
code point, as in Python), and lifts that to the five-field group key.
-/

/-- String order by code point, as pandas compares and sorts string cells. -/
def strLe (a b : String) : Prop := a.data ≤ b.data

instance : DecidableRel strLe := fun a b => inferInstanceAs (Decidable (a.data ≤ b.data))

instance : IsTotal String strLe := ⟨fun a b => le_total a.data b.data⟩

instance : IsTrans String strLe := ⟨fun _ _ _ h₁ h₂ => le_trans h₁ h₂⟩

/-! ### Data model -/

/-- One raw CSV row, seen after `pd.to_numeric(..., errors='coerce')`: the
four text cells are `none` when missing (pandas `NaN`), and a numeric cell is
`none` when `to_numeric` could not coerce it. -/
structure RawRecord where
  machine : Option String
  state : Option String
  msgCode : Option String
  msgDesc : Option String
  duration : Option Int
  occur : Option Int
deriving DecidableEq, Repr

/-- A normalized fault record, one row of the cleaned frame of line 84. -/
structure FaultRecord where
  machine : String
  state : String
  msgCode : String
  msgDesc : String
  faultDesc : String
  duration : Int
  occur : Int
deriving DecidableEq, Repr

/-- Effect of `astype(str)` followed by `fillna('Unknown')` on one text cell:
`astype(str)` renders a missing cell as the string "nan", after which the
frame holds no `NaN` and `fillna` changes nothing (lines 78-81). -/
def strOrNan : Option String → String
  | none => "nan"
  | some s => s

/-- Normalization of one raw row (lines 70-84): rows whose numeric cells
failed coercion are dropped, text cells go through `strOrNan`, and
`Fault_Description` is the message description followed by the message code
in parentheses. -/
def normalizeRecord (r : RawRecord) : Option FaultRecord :=
  match r.duration, r.occur with
  | some d, some o =>
      some { machine := strOrNan r.machine
             state := strOrNan r.state
             msgCode := strOrNan r.msgCode
             msgDesc := strOrNan r.msgDesc
             faultDesc := strOrNan r.msgDesc ++ " (" ++ strOrNan r.msgCode ++ ")"
             duration := d
             occur := o }
  | _, _ => none

/-- The normalized frame: rows with a non-coercible numeric cell are gone. -/
def normalize (rows : List RawRecord) : List FaultRecord :=
  rows.filterMap normalizeRecord

/-- The five-field grouping key of lines 87-93. -/
structure AggKey where
  machine : String
  state : String
  msgCode : String
  msgDesc : String
  faultDesc : String
deriving DecidableEq, Repr

/-- The grouping key of a normalized record. -/
def keyOf (r : FaultRecord) : AggKey :=
  { machine := r.machine, state := r.state, msgCode := r.msgCode
    msgDesc := r.msgDesc, faultDesc := r.faultDesc }

/-- The key as the column tuple pandas sorts group labels by (in groupby
column order, each cell as its character list). -/
def keyTuple (k : AggKey) : List (List Char) :=
  [k.machine.data, k.state.data, k.msgCode.data, k.msgDesc.data, k.faultDesc.data]

/-- Key order `a ≤ b`: lexicographic over the column tuple, the order the
sorted groupby leaves the output rows in. -/
def keyLe (a b : AggKey) : Prop := keyTuple a ≤ keyTuple b

instance : DecidableRel keyLe := fun a b => inferInstanceAs (Decidable (keyTuple a ≤ keyTuple b))

instance : IsTotal AggKey keyLe := ⟨fun a b => le_total (keyTuple a) (keyTuple b)⟩

instance : IsTrans AggKey keyLe := ⟨fun _ _ _ h₁ h₂ => le_trans h₁ h₂⟩

/-- Distinct values of a list in order of first appearance, as
`pandas.unique` enumerates them; `seen` accumulates values already kept. -/
def firstSeenFrom {α : Type} [DecidableEq α] (seen : List α) : List α → List α
  | [] => []
  | x :: xs => if x ∈ seen then firstSeenFrom seen xs
               else x :: firstSeenFrom (x :: seen) xs

/-- Distinct values of a list in order of first appearance. -/
def firstSeen {α : Type} [DecidableEq α] (l : List α) : List α :=
  firstSeenFrom [] l

/-- One output row of an aggregation: a key and one summed metric. -/
structure AggRow where
  key : AggKey
  value : Int
deriving DecidableEq, Repr

/-- Sum of a metric over the records of one group (plain addition). -/
def sumBy (metric : FaultRecord → Int) (rs : List FaultRecord) (k : AggKey) : Int :=
  ((rs.filter (fun r => decide (keyOf r = k))).map metric).sum

/-- One `groupby([...five key columns...]).agg('sum').reset_index()` call of
lines 87-93: one row per distinct key, rows sorted ascending by the key
(pandas groups with `sort=True`), the row's value the sum of the metric. -/
def aggregateBy (metric : FaultRecord → Int) (rs : List FaultRecord) : List AggRow :=
  (List.insertionSort keyLe (firstSeen (rs.map keyOf))).map
    (fun k => { key := k, value := sumBy metric rs k })

/-- The rows of an aggregated frame selected for one machine (boolean-mask
filtering keeps the frame's row order). -/
def rowsForMachine (agg : List AggRow) (m : String) : List AggRow :=
  agg.filter (fun a => decide (a.key.machine = m))

/-- Descending comparison on aggregated rows by their summed value. -/
def rowGe (a b : AggRow) : Prop := b.value ≤ a.value

instance : DecidableRel rowGe := fun a b => Int.decLe b.value a.value

instance : IsTotal AggRow rowGe := ⟨fun a b => le_total b.value a.value⟩

instance : IsTrans AggRow rowGe := ⟨fun _ _ _ h₁ h₂ => le_trans h₂ h₁⟩

/-- Lines 115-120: filter the aggregated frame to one machine, sort
descending by the metric, keep the first ten rows (`head(10)`).
`sort_values` uses numpy's default quicksort (introsort), whose order among
tied rows is unspecified (it is unstable from 16 elements on); the model's
insertion sort is one admissible outcome, and no general theorem below
relies on its tie order — only on row count, sortedness, membership and the
sorted value sequence, which every correct descending sort shares. -/
def top10 (agg : List AggRow) (m : String) : List AggRow :=
  (List.insertionSort rowGe (rowsForMachine agg m)).take 10

/-- Sum of the values of a list of aggregated rows. -/
def sumValues (l : List AggRow) : Int := (l.map (fun a => a.value)).sum

/-- Descending comparison on metric values. -/
def intGe (a b : Int) : Prop := b ≤ a

instance : DecidableRel intGe := fun a b => Int.decLe b a

instance : IsTotal Int intGe := ⟨fun a b => le_total b a⟩

instance : IsTrans Int intGe := ⟨fun _ _ _ h₁ h₂ => le_trans h₂ h₁⟩

instance : IsAntisymm Int intGe := ⟨fun _ _ h₁ h₂ => le_antisymm h₂ h₁⟩

/-- The metric values of a list of aggregated rows, sorted descending: the
value sequence every correct descending sort of the rows produces, however
it orders tied rows. -/
def sortedValuesDesc (l : List AggRow) : List Int :=
  List.insertionSort intGe (l.map (fun a => a.value))

/-- Ascending sort of strings, as pandas sorts group labels. -/
def sortStrings (l : List String) : List String := List.insertionSort strLe l

/-- Line 96: `df.groupby('D_MachineName').size()` over the row-level
normalized frame: machines ascending, each with its count of rows (not of
distinct keys). -/
def uniqueFaultsPerStation (rs : List FaultRecord) : List (String × Nat) :=
  (sortStrings (firstSeen (rs.map (fun r => r.machine)))).map
    (fun m => (m, (rs.filter (fun r => decide (r.machine = m))).length))

/-- Descending comparison on station summary rows by their count. -/
def cntGe (a b : String × Nat) : Prop := b.2 ≤ a.2

instance : DecidableRel cntGe := fun a b => Nat.decLe b.2 a.2

/-- Line 97: the station summary sorted descending by the count column. -/
def sortedUniqueFaultsPerStation (rs : List FaultRecord) : List (String × Nat) :=
  List.insertionSort cntGe (uniqueFaultsPerStation rs)

/-- Descending comparison on station summary rows by their total. -/
def durGe (a b : String × Int) : Prop := b.2 ≤ a.2

instance : DecidableRel durGe := fun a b => Int.decLe b.2 a.2

/-- Line 100: total duration per station, from the duration aggregation:
machines ascending, each with the sum of its aggregated duration values. -/
def totalDurationPerStation (agg : List AggRow) : List (String × Int) :=
  (sortStrings (firstSeen (agg.map (fun a => a.key.machine)))).map
    (fun m => (m, sumValues (rowsForMachine agg m)))

/-- Line 101: the station summary sorted descending by the total column. -/
def sortedTotalDurationPerStation (agg : List AggRow) : List (String × Int) :=
  List.insertionSort durGe (totalDurationPerStation agg)

/-- Characters xlsxwriter forbids in sheet names, as removed by line 22. -/
def invalidSheetChars : List Char := ['\\', '/', '*', '?', '[', ']', ':']

/-- Python `str.strip()`: drop leading and trailing whitespace. -/
def pyStrip (l : List Char) : List Char :=
  ((l.dropWhile Char.isWhitespace).reverse.dropWhile Char.isWhitespace).reverse

/-- Lines 13-23: remove the invalid characters, strip surrounding
whitespace, and keep the first 25 characters. -/
def sanitize_sheet_name (name : String) : String :=
  String.mk ((pyStrip (name.data.filter (fun c => !invalidSheetChars.contains c))).take 25)

/-- Line 111: the distinct machines of the duration aggregation, in the
order `pandas.unique` enumerates them (the frame's row order, which the
sorted groupby has made ascending by machine). -/
def uniqueMachines (agg : List AggRow) : List String :=
  firstSeen (agg.map (fun a => a.key.machine))

/-- One per-machine worksheet: its sanitized name and its two ranked
tables (lines 114-135). -/
structure MachineSheet where
  sheetName : String
  topDuration : List AggRow
  topOccurrence : List AggRow
deriving DecidableEq, Repr

/-- The logical content of the persisted workbook: the per-machine sheets,
the index rows, the two summary sheets, the sheet order the write pass
created, and the index of the sheet the final openpyxl step marks active. -/
structure Report where
  machineSheets : List MachineSheet
  indexEntries : List (String × String)
  uniqueFaultsSheet : List (String × Nat)
  totalDurationSheet : List (String × Int)
  sheetOrder : List String
  activeSheetIdx : Nat
deriving DecidableEq, Repr

/-- The per-machine sheets in loop order (lines 114-156). -/
def machineSheetsOf (df : List FaultRecord) : List MachineSheet :=
  (uniqueMachines (aggregateBy (fun r => r.duration) df)).map
    (fun m => { sheetName := sanitize_sheet_name m
                topDuration := top10 (aggregateBy (fun r => r.duration) df) m
                topOccurrence := top10 (aggregateBy (fun r => r.occur) df) m })

/-- The index rows appended in loop order (line 159): machine name paired
with its sanitized sheet name. -/
def indexEntriesOf (df : List FaultRecord) : List (String × String) :=
  (uniqueMachines (aggregateBy (fun r => r.duration) df)).map
    (fun m => (m, sanitize_sheet_name m))

/-- The workbook's sheet order as the write pass creates it: one sheet per
machine in loop order, then "Index", "Unique Faults", "Total Duration"
(lines 126, 165, 177, 182). -/
def sheetOrderOf (df : List FaultRecord) : List String :=
  (uniqueMachines (aggregateBy (fun r => r.duration) df)).map sanitize_sheet_name
    ++ ["Index", "Unique Faults", "Total Duration"]

/-- The pipeline on an already-normalized frame.  The final step (lines
200-201) reopens the workbook with openpyxl and assigns `book.active` the
position of "Index" in `book.sheetnames`; assigning `active` selects a sheet
and moves none, so `sheetOrder` is unchanged by it. -/
def processNormalized (df : List FaultRecord) : Report :=
  { machineSheets := machineSheetsOf df
    indexEntries := indexEntriesOf df
    uniqueFaultsSheet := sortedUniqueFaultsPerStation df
    totalDurationSheet := sortedTotalDurationPerStation (aggregateBy (fun r => r.duration) df)
    sheetOrder := sheetOrderOf df
    activeSheetIdx := (sheetOrderOf df).indexOf "Index" }

/-- The whole pipeline of `process_faults_file` (lines 65-203), from the raw
rows of the CSV to the logical content of the persisted workbook. -/
def process_faults_file (rows : List RawRecord) : Report :=
  processNormalized (normalize rows)

/-- Top-10 selection as §4.3 of the specification words it for the tie
case.  Modelled from the spec: "ties at the 10th position are resolved by
the Aggregator's stable order (first-seen wins the cutoff)" — the rows
entering the descending sort stand in the order their keys first appeared,
not in the sorted-groupby order the code produces. -/
def specTop10FirstSeen (metric : FaultRecord → Int) (rs : List FaultRecord) (m : String) :
    List AggRow :=
  (List.insertionSort rowGe
    (((firstSeen (rs.map keyOf)).filter (fun k => decide (k.machine = m))).map
      (fun k => { key := k, value := sumBy metric rs k }))).take 10

/-! ### Concrete inputs evaluated by the claim theorems -/

/-- Two raw rows with the same five-field key, both for machine M1. -/
def rowsC1 : List RawRecord :=
  [ { machine := some "M1", state := some "S", msgCode := some "c1",
      msgDesc := some "desc1", duration := some 10, occur := some 2 },
    { machine := some "M1", state := some "S", msgCode := some "c1",
      msgDesc := some "desc1", duration := some 10, occur := some 2 } ]

/-- A single raw row, for machine M1. -/
def rowsC2 : List RawRecord :=
  [ { machine := some "M1", state := some "S", msgCode := some "c1",
      msgDesc := some "desc1", duration := some 7, occur := some 3 } ]

/-- Two rows for machine M with equal durations and equal occurrences,
whose first-seen key order (code c2 before c1) is the reverse of the
lexicographic key order. -/
def rowsC3 : List RawRecord :=
  [ { machine := some "M", state := some "S", msgCode := some "c2",
      msgDesc := some "d", duration := some 5, occur := some 1 },
    { machine := some "M", state := some "S", msgCode := some "c1",
      msgDesc := some "d", duration := some 5, occur := some 1 } ]

/-- Two rows whose machines appear in the order B, A. -/
def rowsC4 : List RawRecord :=
  [ { machine := some "B", state := some "S", msgCode := some "c1",
      msgDesc := some "d", duration := some 1, occur := some 1 },
    { machine := some "A", state := some "S", msgCode := some "c2",
      msgDesc := some "d", duration := some 1, occur := some 1 } ]

/-- A raw row whose four text cells are all missing. -/
def rowC5 : RawRecord :=
  { machine := none, state := none, msgCode := none, msgDesc := none,
    duration := some 1, occur := some 1 }

/-- The normalized record the all-missing row becomes. -/
def recC5 : FaultRecord :=
  { machine := "nan", state := "nan", msgCode := "nan", msgDesc := "nan",
    faultDesc := "nan (nan)", duration := 1, occur := 1 }

/-- A well-formed raw row, for machine M1. -/
def rowC6good : RawRecord :=
  { machine := some "M1", state := some "S", msgCode := some "c1",
    msgDesc := some "desc1", duration := some 4, occur := some 2 }

/-- A raw row whose duration cell failed numeric coercion. -/
def rowC6bad : RawRecord :=
  { machine := some "M2", state := some "S", msgCode := some "c2",
    msgDesc := some "desc2", duration := none, occur := some 1 }

/-- The round-trip scenario of §8: two rows with the same key for M1 and a
row for M2 whose duration cell failed numeric coercion. -/
def rowsC7 : List RawRecord :=
  [ { machine := some "M1", state := some "S", msgCode := some "c1",
      msgDesc := some "desc1", duration := some 10, occur := some 2 },
    { machine := some "M1", state := some "S", msgCode := some "c1",
      msgDesc := some "desc1", duration := some 5, occur := some 1 },
    { machine := some "M2", state := some "S", msgCode := some "c2",
      msgDesc := some "desc2", duration := none, occur := some 1 } ]

/-- The aggregate key of the M1 rows of `rowsC7`. -/
def keyC7 : AggKey :=
  { machine := "M1", state := "S", msgCode := "c1", msgDesc := "desc1",
    faultDesc := "desc1 (c1)" }

/-- One raw row for machine M with the given message code and duration. -/
def mkRowC8 (code : String) (dur : Int) : RawRecord :=
  { machine := some "M", state := some "S", msgCode := some code,
    msgDesc := some "d", duration := some dur, occur := some 1 }

/-- Eleven rows for machine M with distinct codes: ten of duration 1 and
one of duration 0. -/
def rowsC8 : List RawRecord :=
  [ mkRowC8 "c00" 1, mkRowC8 "c01" 1, mkRowC8 "c02" 1, mkRowC8 "c03" 1,
    mkRowC8 "c04" 1, mkRowC8 "c05" 1, mkRowC8 "c06" 1, mkRowC8 "c07" 1,
    mkRowC8 "c08" 1, mkRowC8 "c09" 1, mkRowC8 "c10" 0 ]

/-- Two rows for machine M with nonnegative durations. -/
def rowsC8w : List RawRecord := [ mkRowC8 "a" 4, mkRowC8 "b" 2 ]

/-- A machine name with every invalid character and more than 25 characters. -/
def nameC9 : String := " ACME\\Line/1*?[]: a machine name well beyond the limit "

/-- An input list reused by the determinism witness. -/
def rowsC10 : List RawRecord :=
  [ { machine := some "M1", state := some "S", msgCode := some "c1",
      msgDesc := some "desc1", duration := some 3, occur := some 1 } ]

/-! ### Helper lemmas -/

theorem firstSeenFrom_sublist {α : Type} [DecidableEq α] :
    ∀ (l : List α) (seen : List α), List.Sublist (firstSeenFrom seen l) l
  | [], _ => List.Sublist.refl _
  | x :: xs, seen => by
      by_cases h : x ∈ seen
      · simpa [firstSeenFrom, h] using (firstSeenFrom_sublist xs seen).cons x
      · simpa [firstSeenFrom, h] using (firstSeenFrom_sublist xs (x :: seen)).cons₂ x

theorem firstSeen_sublist {α : Type} [DecidableEq α] (l : List α) :
    List.Sublist (firstSeen l) l :=
  firstSeenFrom_sublist l []

theorem mem_firstSeenFrom {α : Type} [DecidableEq α] {x : α} :
    ∀ {l seen : List α}, x ∈ firstSeenFrom seen l ↔ x ∈ l ∧ x ∉ seen
  | [], seen => by simp [firstSeenFrom]
  | y :: ys, seen => by
      by_cases h : y ∈ seen
      · rw [firstSeenFrom, if_pos h, mem_firstSeenFrom]
        constructor
        · rintro ⟨hmem, hns⟩
          exact ⟨List.mem_cons_of_mem _ hmem, hns⟩
        · rintro ⟨hmem, hns⟩
          rcases List.mem_cons.mp hmem with rfl | hmem
          · exact absurd h hns
          · exact ⟨hmem, hns⟩
      · rw [firstSeenFrom, if_neg h]
        constructor
        · intro hmem
          rcases List.mem_cons.mp hmem with rfl | hmem
          · exact ⟨List.mem_cons_self _ _, h⟩
          · rcases mem_firstSeenFrom.mp hmem with ⟨hys, hns⟩
            exact ⟨List.mem_cons_of_mem _ hys,
                   fun hs => hns (List.mem_cons_of_mem _ hs)⟩
        · rintro ⟨hmem, hns⟩
          rcases List.mem_cons.mp hmem with rfl | hmem
          · exact List.mem_cons_self _ _
          · by_cases hxy : x = y
            · exact hxy ▸ List.mem_cons_self _ _
            · exact List.mem_cons_of_mem _ (mem_firstSeenFrom.mpr
                ⟨hmem, fun hs => (List.mem_cons.mp hs).elim hxy hns⟩)

theorem mem_firstSeen {α : Type} [DecidableEq α] {x : α} {l : List α} :
    x ∈ firstSeen l ↔ x ∈ l := by
  rw [firstSeen, mem_firstSeenFrom]
  simp

theorem nodup_firstSeenFrom {α : Type} [DecidableEq α] :
    ∀ (l : List α) (seen : List α), (firstSeenFrom seen l).Nodup
  | [], _ => List.nodup_nil
  | y :: ys, seen => by
      by_cases h : y ∈ seen
      · simpa [firstSeenFrom, h] using nodup_firstSeenFrom ys seen
      · rw [firstSeenFrom, if_neg h]
        refine List.nodup_cons.mpr ⟨fun hmem => ?_, nodup_firstSeenFrom ys (y :: seen)⟩
        exact (mem_firstSeenFrom.mp hmem).2 (List.mem_cons_self _ _)

theorem nodup_firstSeen {α : Type} [DecidableEq α] (l : List α) : (firstSeen l).Nodup :=
  nodup_firstSeenFrom l []

theorem map_fst_pairing {α β : Type} (f : α → β) :
    ∀ l : List α, (l.map (fun m => (m, f m))).map Prod.fst = l
  | [] => rfl
  | x :: xs => by rw [List.map_cons, List.map_cons, map_fst_pairing f xs]

theorem map_snd_pairing {α β : Type} (f : α → β) :
    ∀ l : List α, (l.map (fun m => (m, f m))).map Prod.snd = l.map f
  | [] => rfl
  | x :: xs => by rw [List.map_cons, List.map_cons, List.map_cons, map_snd_pairing f xs]

theorem sumValues_perm {l₁ l₂ : List AggRow} (h : l₁.Perm l₂) : sumValues l₁ = sumValues l₂ := by
  unfold sumValues
  exact (h.map (fun a => a.value)).sum_eq

theorem sum_take_le_of_nonneg {l : List Int} (h : ∀ x ∈ l, 0 ≤ x) (n : Nat) :
    (l.take n).sum ≤ l.sum := by
  conv_rhs => rw [← List.take_append_drop n l]
  rw [List.sum_append]
  have hd : 0 ≤ (l.drop n).sum :=
    List.sum_nonneg (fun x hx => h x (List.mem_of_mem_drop hx))
  exact le_add_of_nonneg_right hd

/-! ### Properties of the embedded operations -/

theorem top10_length_le (agg : List AggRow) (m : String) : (top10 agg m).length ≤ 10 :=
  List.length_take_le 10 _

theorem top10_sorted (agg : List AggRow) (m : String) : List.Sorted rowGe (top10 agg m) :=
  List.Pairwise.sublist (List.take_sublist 10 _) (List.sorted_insertionSort rowGe _)

theorem mem_of_mem_top10 {agg : List AggRow} {m : String} {a : AggRow}
    (h : a ∈ top10 agg m) : a ∈ rowsForMachine agg m :=
  (List.mem_insertionSort rowGe).mp (List.mem_of_mem_take h)

theorem top10_map_value (agg : List AggRow) (m : String) :
    (top10 agg m).map (fun a => a.value) =
      (sortedValuesDesc (rowsForMachine agg m)).take 10 := by
  unfold top10 sortedValuesDesc
  rw [List.map_take]
  congr 1
  have hperm : ((List.insertionSort rowGe (rowsForMachine agg m)).map
      (fun a => a.value)).Perm
      (List.insertionSort intGe ((rowsForMachine agg m).map (fun a => a.value))) :=
    ((List.perm_insertionSort rowGe _).map _).trans
      (List.perm_insertionSort intGe _).symm
  have hs₁ : List.Sorted intGe ((List.insertionSort rowGe (rowsForMachine agg m)).map
      (fun a => a.value)) :=
    List.Pairwise.map _ (fun _ _ h => h) (List.sorted_insertionSort rowGe _)
  have hs₂ : List.Sorted intGe
      (List.insertionSort intGe ((rowsForMachine agg m).map (fun a => a.value))) :=
    List.sorted_insertionSort intGe _
  exact List.eq_of_perm_of_sorted hperm hs₁ hs₂

theorem keyLe_machine {a b : AggKey} (h : keyLe a b) : strLe a.machine b.machine := by
  rcases lt_or_eq_of_le h with hlt | heq
  · exact List.head_le_of_lt hlt
  · unfold keyTuple at heq
    injection heq with h1 _
    exact le_of_eq h1

theorem sorted_uniqueMachines (metric : FaultRecord → Int) (rs : List FaultRecord) :
    List.Sorted strLe (uniqueMachines (aggregateBy metric rs)) := by
  unfold uniqueMachines aggregateBy
  rw [List.map_map]
  have hcomp : ((fun a : AggRow => a.key.machine) ∘
      (fun k => ({ key := k, value := sumBy metric rs k } : AggRow))) =
      fun k : AggKey => k.machine := rfl
  rw [hcomp]
  have hs : List.Sorted keyLe (List.insertionSort keyLe (firstSeen (rs.map keyOf))) :=
    List.sorted_insertionSort keyLe _
  have hm : List.Sorted strLe
      ((List.insertionSort keyLe (firstSeen (rs.map keyOf))).map (fun k => k.machine)) :=
    List.Pairwise.map _ (fun _ _ hab => keyLe_machine hab) hs
  exact List.Pairwise.sublist (firstSeen_sublist _) hm

theorem nodup_uniqueMachines (agg : List AggRow) : (uniqueMachines agg).Nodup :=
  nodup_firstSeen _

theorem mem_uniqueMachines (metric : FaultRecord → Int) (rs : List FaultRecord) (m : String) :
    m ∈ uniqueMachines (aggregateBy metric rs) ↔ m ∈ rs.map (fun r => r.machine) := by
  unfold uniqueMachines aggregateBy
  rw [mem_firstSeen, List.map_map]
  have hcomp : ((fun a : AggRow => a.key.machine) ∘
      (fun k => ({ key := k, value := sumBy metric rs k } : AggRow))) =
      fun k : AggKey => k.machine := rfl
  rw [hcomp]
  have hperm : ((List.insertionSort keyLe (firstSeen (rs.map keyOf))).map
      (fun k : AggKey => k.machine)).Perm ((firstSeen (rs.map keyOf)).map
      (fun k : AggKey => k.machine)) :=
    (List.perm_insertionSort keyLe _).map _
  rw [hperm.mem_iff]
  simp only [List.mem_map]
  constructor
  · rintro ⟨k, hk, rfl⟩
    rcases List.mem_map.mp (mem_firstSeen.mp hk) with ⟨r, hr, rfl⟩
    exact ⟨r, hr, rfl⟩
  · rintro ⟨r, hr, rfl⟩
    exact ⟨keyOf r, mem_firstSeen.mpr (List.mem_map.mpr ⟨r, hr, rfl⟩), rfl⟩

theorem sumBy_nonneg (metric : FaultRecord → Int) (rs : List FaultRecord) (k : AggKey)
    (h : ∀ r ∈ rs, 0 ≤ metric r) : 0 ≤ sumBy metric rs k := by
  apply List.sum_nonneg
  intro x hx
  rcases List.mem_map.mp hx with ⟨r, hr, rfl⟩
  exact h r (List.mem_filter.mp hr).1

theorem aggregateBy_value_nonneg (metric : FaultRecord → Int) (rs : List FaultRecord)
    (h : ∀ r ∈ rs, 0 ≤ metric r) : ∀ a ∈ aggregateBy metric rs, 0 ≤ a.value := by
  intro a ha
  rcases List.mem_map.mp ha with ⟨k, _, rfl⟩
  exact sumBy_nonneg metric rs k h

theorem top10_sumValues_le (agg : List AggRow) (m : String)
    (h : ∀ a ∈ agg, 0 ≤ a.value) :
    sumValues (top10 agg m) ≤ sumValues (rowsForMachine agg m) := by
  have hperm := List.perm_insertionSort rowGe (rowsForMachine agg m)
  rw [← sumValues_perm hperm]
  unfold top10 sumValues
  rw [List.map_take]
  apply sum_take_le_of_nonneg
  intro x hx
  rcases List.mem_map.mp hx with ⟨a, ha, rfl⟩
  have ha' : a ∈ rowsForMachine agg m := (List.mem_insertionSort rowGe).mp ha
  exact h a (List.mem_filter.mp ha').1

theorem top10_sumValues_eq (agg : List AggRow) (m : String)
    (hlen : (rowsForMachine agg m).length ≤ 10) :
    sumValues (top10 agg m) = sumValues (rowsForMachine agg m) := by
  have hperm := List.perm_insertionSort rowGe (rowsForMachine agg m)
  unfold top10
  rw [List.take_of_length_le (by rw [hperm.length_eq]; exact hlen)]
  exact sumValues_perm hperm

theorem normalizeRecord_eq_none {r : RawRecord}
    (h : r.duration = none ∨ r.occur = none) : normalizeRecord r = none := by
  obtain ⟨m, s, c, d, dur, oc⟩ := r
  rcases h with h | h
  · simp only at h
    cases h
    cases oc <;> rfl
  · simp only at h
    cases h
    cases dur <;> rfl

theorem normalize_drop_bad (pre post : List RawRecord) {r : RawRecord}
    (h : normalizeRecord r = none) :
    normalize (pre ++ r :: post) = normalize (pre ++ post) := by
  unfold normalize
  rw [List.filterMap_append, List.filterMap_append, List.filterMap_cons_none h]

theorem sanitize_sheet_name_length (name : String) :
    (sanitize_sheet_name name).length ≤ 25 :=
  List.length_take_le 25 _

theorem mem_sanitize_sheet_name {name : String} {c : Char}
    (hc : c ∈ (sanitize_sheet_name name).data) :
    c ∈ name.data.filter (fun c => !invalidSheetChars.contains c) := by
  have h1 : c ∈ pyStrip (name.data.filter (fun c => !invalidSheetChars.contains c)) :=
    List.mem_of_mem_take hc
  unfold pyStrip at h1
  rw [List.mem_reverse] at h1
  have h2 := (List.dropWhile_sublist _).subset h1
  rw [List.mem_reverse] at h2
  exact (List.dropWhile_sublist _).subset h2

/-! ### Claim theorems -/

/-- C1: the claim says the Unique Faults summary reports, per machine, the
number of distinct aggregate keys with that machine, not the raw row count.
Line 96 groups the row-level frame and takes group sizes, so the code
reports raw row counts: on two rows with the same key for M1 the summary
says 2 while only one distinct aggregate key exists — contradicting both
the claim and the code's own "Unique Faults" label. -/
theorem C1_unique_faults_counts_rows_not_keys :
    sortedUniqueFaultsPerStation (normalize rowsC1) = [("M1", 2)] ∧
    (rowsForMachine (aggregateBy (fun r => r.duration) (normalize rowsC1)) "M1").length = 1 ∧
    decide (sortedUniqueFaultsPerStation (normalize rowsC1) =
      [("M1", (rowsForMachine (aggregateBy (fun r => r.duration)
        (normalize rowsC1)) "M1").length)]) = false :=
  ⟨by decide, by decide, by decide⟩

/-- C2: the claim says the Index sheet ends up first in the persisted sheet
order.  The write pass appends it after the per-machine sheets, and the
final openpyxl step (lines 200-201) only assigns `book.active` — the index
of the selected sheet — which moves nothing: on a single-machine input the
persisted order stays [M1, Index, Unique Faults, Total Duration], with the
Index sheet second, merely marked active. -/
theorem C2_index_sheet_selected_not_moved :
    (process_faults_file rowsC2).sheetOrder =
      ["M1", "Index", "Unique Faults", "Total Duration"] ∧
    (process_faults_file rowsC2).activeSheetIdx = 1 ∧
    decide ((process_faults_file rowsC2).sheetOrder.head? = some "Index") = false :=
  ⟨by decide, by decide, by decide⟩

/-- C3 counterexample: the claim resolves ties by first-seen order during
aggregation.  On two equal-duration keys first seen as c2, c1 the code's
ranked list is [c1, c2] — the sorted groupby hands the sorter ascending
lexicographic key order — while the spec's first-seen tie-break predicts
[c2, c1]. -/
theorem C3_counterexample_tie_order :
    ((top10 (aggregateBy (fun r => r.duration) (normalize rowsC3)) "M").map
      (fun a => a.key.msgCode)) = ["c1", "c2"] ∧
    ((specTop10FirstSeen (fun r => r.duration) (normalize rowsC3) "M").map
      (fun a => a.key.msgCode)) = ["c2", "c1"] ∧
    decide (top10 (aggregateBy (fun r => r.duration) (normalize rowsC3)) "M" =
      specTop10FirstSeen (fun r => r.duration) (normalize rowsC3) "M") = false :=
  ⟨by decide, by decide, by decide⟩

/-- C3 as amended: each of the two per-machine ranked lists has at most 10
rows, is sorted descending by its metric, draws every row from that
machine's aggregated rows, and carries the ten largest metric values in
descending order.  These are exactly the properties every correct
descending sort shares; the relative order of tied rows — including which
tied rows survive the 10th-position cutoff — is left unspecified by the
code (`sort_values` runs numpy's quicksort, unstable from 16 elements on)
and in particular is not the first-seen order of aggregation, as the
counterexample shows. -/
theorem C3_top10_bounded_sorted_largest_values (rows : List RawRecord) (m : String) :
    ((top10 (aggregateBy (fun r => r.duration) (normalize rows)) m).length ≤ 10 ∧
     List.Sorted rowGe (top10 (aggregateBy (fun r => r.duration) (normalize rows)) m) ∧
     (∀ a ∈ top10 (aggregateBy (fun r => r.duration) (normalize rows)) m,
       a ∈ rowsForMachine (aggregateBy (fun r => r.duration) (normalize rows)) m) ∧
     (top10 (aggregateBy (fun r => r.duration) (normalize rows)) m).map (fun a => a.value) =
       (sortedValuesDesc (rowsForMachine (aggregateBy (fun r => r.duration)
         (normalize rows)) m)).take 10) ∧
    ((top10 (aggregateBy (fun r => r.occur) (normalize rows)) m).length ≤ 10 ∧
     List.Sorted rowGe (top10 (aggregateBy (fun r => r.occur) (normalize rows)) m) ∧
     (∀ a ∈ top10 (aggregateBy (fun r => r.occur) (normalize rows)) m,
       a ∈ rowsForMachine (aggregateBy (fun r => r.occur) (normalize rows)) m) ∧
     (top10 (aggregateBy (fun r => r.occur) (normalize rows)) m).map (fun a => a.value) =
       (sortedValuesDesc (rowsForMachine (aggregateBy (fun r => r.occur)
         (normalize rows)) m)).take 10) :=
  ⟨⟨top10_length_le _ _, top10_sorted _ _, fun _ ha => mem_of_mem_top10 ha,
    top10_map_value _ _⟩,
   ⟨top10_length_le _ _, top10_sorted _ _, fun _ ha => mem_of_mem_top10 ha,
    top10_map_value _ _⟩⟩

/-- Witness for C3 at a concrete input. -/
theorem C3_witness :
    ((top10 (aggregateBy (fun r => r.duration) (normalize rowsC3)) "M").length ≤ 10 ∧
     List.Sorted rowGe (top10 (aggregateBy (fun r => r.duration) (normalize rowsC3)) "M") ∧
     (∀ a ∈ top10 (aggregateBy (fun r => r.duration) (normalize rowsC3)) "M",
       a ∈ rowsForMachine (aggregateBy (fun r => r.duration) (normalize rowsC3)) "M") ∧
     (top10 (aggregateBy (fun r => r.duration) (normalize rowsC3)) "M").map (fun a => a.value) =
       (sortedValuesDesc (rowsForMachine (aggregateBy (fun r => r.duration)
         (normalize rowsC3)) "M")).take 10) ∧
    ((top10 (aggregateBy (fun r => r.occur) (normalize rowsC3)) "M").length ≤ 10 ∧
     List.Sorted rowGe (top10 (aggregateBy (fun r => r.occur) (normalize rowsC3)) "M") ∧
     (∀ a ∈ top10 (aggregateBy (fun r => r.occur) (normalize rowsC3)) "M",
       a ∈ rowsForMachine (aggregateBy (fun r => r.occur) (normalize rowsC3)) "M") ∧
     (top10 (aggregateBy (fun r => r.occur) (normalize rowsC3)) "M").map (fun a => a.value) =
       (sortedValuesDesc (rowsForMachine (aggregateBy (fun r => r.occur)
         (normalize rowsC3)) "M")).take 10) :=
  C3_top10_bounded_sorted_largest_values rowsC3 "M"

/-- C4 counterexample: the claim records index entries in the order
machines first appear in the normalized records.  With machines first seen
as B, A the code records [A, B]: line 111 enumerates machines from the
aggregated frame, which the sorted groupby has ordered alphabetically. -/
theorem C4_counterexample_alphabetical_order :
    (process_faults_file rowsC4).indexEntries = [("A", "A"), ("B", "B")] ∧
    firstSeen ((normalize rowsC4).map (fun r => r.machine)) = ["B", "A"] ∧
    decide ((process_faults_file rowsC4).indexEntries.map Prod.fst =
      firstSeen ((normalize rowsC4).map (fun r => r.machine))) = false :=
  ⟨by decide, by decide, by decide⟩

/-- C4 as amended: the per-machine sheets and the index entries are
recorded one per distinct machine of the normalized records, in ascending
lexicographic order of machine name (the order the sorted groupby leaves
the aggregated frame in), each machine paired with its sanitized sheet
name. -/
theorem C4_index_entries_sorted_by_machine (rows : List RawRecord) :
    List.Sorted strLe ((process_faults_file rows).indexEntries.map Prod.fst) ∧
    ((process_faults_file rows).indexEntries.map Prod.fst).Nodup ∧
    (∀ m : String, m ∈ (process_faults_file rows).indexEntries.map Prod.fst ↔
      m ∈ (normalize rows).map (fun r => r.machine)) ∧
    (process_faults_file rows).indexEntries.map Prod.snd =
      ((process_faults_file rows).indexEntries.map Prod.fst).map sanitize_sheet_name ∧
    (process_faults_file rows).machineSheets.map (fun s => s.sheetName) =
      (process_faults_file rows).indexEntries.map Prod.snd := by
  have he : (process_faults_file rows).indexEntries =
      (uniqueMachines (aggregateBy (fun r => r.duration) (normalize rows))).map
        (fun m => (m, sanitize_sheet_name m)) := rfl
  have hs : (process_faults_file rows).machineSheets =
      (uniqueMachines (aggregateBy (fun r => r.duration) (normalize rows))).map
        (fun m => ({ sheetName := sanitize_sheet_name m
                     topDuration := top10 (aggregateBy (fun r => r.duration) (normalize rows)) m
                     topOccurrence := top10 (aggregateBy (fun r => r.occur) (normalize rows)) m } :
                   MachineSheet)) := rfl
  refine ⟨?_, ?_, ?_, ?_, ?_⟩
  · rw [he, map_fst_pairing]
    exact sorted_uniqueMachines _ _
  · rw [he, map_fst_pairing]
    exact nodup_uniqueMachines _
  · intro m
    rw [he, map_fst_pairing]
    exact mem_uniqueMachines _ _ m
  · rw [he, map_fst_pairing, map_snd_pairing]
  · rw [he, map_snd_pairing, hs, List.map_map]
    rfl

/-- Witness for C4 at a concrete input. -/
theorem C4_witness :
    List.Sorted strLe ((process_faults_file rowsC4).indexEntries.map Prod.fst) ∧
    ((process_faults_file rowsC4).indexEntries.map Prod.fst).Nodup ∧
    (∀ m : String, m ∈ (process_faults_file rowsC4).indexEntries.map Prod.fst ↔
      m ∈ (normalize rowsC4).map (fun r => r.machine)) ∧
    (process_faults_file rowsC4).indexEntries.map Prod.snd =
      ((process_faults_file rowsC4).indexEntries.map Prod.fst).map sanitize_sheet_name ∧
    (process_faults_file rowsC4).machineSheets.map (fun s => s.sheetName) =
      (process_faults_file rowsC4).indexEntries.map Prod.snd :=
  C4_index_entries_sorted_by_machine rowsC4

/-- C5: the claim says a missing machine name, state description, message
description or message code becomes the placeholder "Unknown".  Lines 78-81
run `astype(str)` before `fillna`, and `astype(str)` renders a missing cell
as the string "nan", after which `fillna` finds nothing to replace: a row
with all four text cells missing normalizes to "nan" cells (and the
derived fault description "nan (nan)"), never to "Unknown" — contradicting
the code's own comment "fill NaN values with a placeholder". -/
theorem C5_missing_text_cells_become_nan :
    normalize [rowC5] = [recC5] ∧ recC5.machine = "nan" ∧
    decide ((normalize [rowC5]).map (fun r => r.machine) = ["Unknown"]) = false :=
  ⟨by decide, by decide, by decide⟩

/-- C6: a row whose duration or occurrence cell failed numeric coercion is
silently dropped: the whole report — every aggregation, station summary and
sheet — is the same as if the row had not been in the input, and no error
is raised (the embedding is total). -/
theorem C6_non_numeric_rows_dropped (pre post : List RawRecord) (r : RawRecord)
    (h : r.duration = none ∨ r.occur = none) :
    process_faults_file (pre ++ r :: post) = process_faults_file (pre ++ post) := by
  unfold process_faults_file
  rw [normalize_drop_bad pre post (normalizeRecord_eq_none h)]

/-- Witness for C6 at a concrete input: dropping the non-coercible M2 row
leaves the report of the single good row. -/
theorem C6_witness :
    (rowC6bad.duration = none ∨ rowC6bad.occur = none) ∧
    process_faults_file [rowC6good, rowC6bad] = process_faults_file [rowC6good] :=
  ⟨Or.inl rfl, C6_non_numeric_rows_dropped [rowC6good] [] rowC6bad (Or.inl rfl)⟩

/-- C7: the round-trip scenario.  The two M1 rows with the same key sum to
duration 15 and occurrence 3 in the two aggregations; the M2 row, whose
duration cell failed coercion, reaches no aggregate and no sheet. -/
theorem C7_roundtrip_scenario :
    aggregateBy (fun r => r.duration) (normalize rowsC7) = [{ key := keyC7, value := 15 }] ∧
    aggregateBy (fun r => r.occur) (normalize rowsC7) = [{ key := keyC7, value := 3 }] ∧
    (process_faults_file rowsC7).machineSheets.map (fun s => s.sheetName) = ["M1"] ∧
    (process_faults_file rowsC7).sheetOrder =
      ["M1", "Index", "Unique Faults", "Total Duration"] ∧
    ((process_faults_file rowsC7).sheetOrder.contains "M2") = false :=
  ⟨by decide, by decide, by decide, by decide, by decide⟩

/-- C8 counterexample: the claim allows equality of the top-10 duration sum
and the machine's total sum only when the machine has at most 10 distinct
keys.  A machine with 11 distinct keys, one of duration 0, reaches equality
anyway: both sums are 10. -/
theorem C8_counterexample_equality_with_11_keys :
    (rowsForMachine (aggregateBy (fun r => r.duration) (normalize rowsC8)) "M").length = 11 ∧
    sumValues (top10 (aggregateBy (fun r => r.duration) (normalize rowsC8)) "M") =
      sumValues (rowsForMachine (aggregateBy (fun r => r.duration) (normalize rowsC8)) "M") :=
  ⟨by decide, by decide⟩

/-- C8 as amended: when the normalized durations are nonnegative (the
specification's FaultRecord invariant), the sum over a machine's selected
top-10 duration rows is at most the sum over all its duration rows, and
equality holds whenever the machine has at most 10 distinct keys (with more
than 10 keys equality is still possible, when the excluded keys all have
zero duration). -/
theorem C8_top10_sum_le_total (rows : List RawRecord) (m : String)
    (h : ∀ r ∈ normalize rows, 0 ≤ r.duration) :
    sumValues (top10 (aggregateBy (fun r => r.duration) (normalize rows)) m) ≤
      sumValues (rowsForMachine (aggregateBy (fun r => r.duration) (normalize rows)) m) ∧
    ((rowsForMachine (aggregateBy (fun r => r.duration) (normalize rows)) m).length ≤ 10 →
      sumValues (top10 (aggregateBy (fun r => r.duration) (normalize rows)) m) =
        sumValues (rowsForMachine (aggregateBy (fun r => r.duration) (normalize rows)) m)) := by
  have hval := aggregateBy_value_nonneg (fun r => r.duration) (normalize rows) h
  exact ⟨top10_sumValues_le _ _ hval, fun hlen => top10_sumValues_eq _ _ hlen⟩

/-- Witness for C8 at a concrete input with nonnegative durations. -/
theorem C8_witness :
    (∀ r ∈ normalize rowsC8w, 0 ≤ r.duration) ∧
    (sumValues (top10 (aggregateBy (fun r => r.duration) (normalize rowsC8w)) "M") ≤
      sumValues (rowsForMachine (aggregateBy (fun r => r.duration) (normalize rowsC8w)) "M") ∧
    ((rowsForMachine (aggregateBy (fun r => r.duration) (normalize rowsC8w)) "M").length ≤ 10 →
      sumValues (top10 (aggregateBy (fun r => r.duration) (normalize rowsC8w)) "M") =
        sumValues (rowsForMachine (aggregateBy (fun r => r.duration) (normalize rowsC8w)) "M"))) :=
  ⟨by decide, C8_top10_sum_le_total rowsC8w "M" (by decide)⟩

/-- C9: every sanitized sheet name has at most 25 characters and contains
none of the characters backslash, slash, asterisk, question mark, brackets
or colon; and the sanitization is a function, so each machine name is
mapped to exactly one sheet name. -/
theorem C9_sanitize_sheet_name_bounds (name : String) :
    (sanitize_sheet_name name).length ≤ 25 ∧
    (sanitize_sheet_name name).data.all (fun c => !invalidSheetChars.contains c) = true ∧
    (∀ n : String, name = n → sanitize_sheet_name name = sanitize_sheet_name n) := by
  refine ⟨sanitize_sheet_name_length name, ?_, fun n h => h ▸ rfl⟩
  rw [List.all_eq_true]
  intro c hc
  exact (List.mem_filter.mp (mem_sanitize_sheet_name hc)).2

/-- Witness for C9 at a concrete name holding every invalid character and
more than 25 characters. -/
theorem C9_witness :
    (sanitize_sheet_name nameC9).length ≤ 25 ∧
    (sanitize_sheet_name nameC9).data.all (fun c => !invalidSheetChars.contains c) = true ∧
    sanitize_sheet_name nameC9 = sanitize_sheet_name nameC9 := by
  obtain ⟨h1, h2, h3⟩ := C9_sanitize_sheet_name_bounds nameC9
  exact ⟨h1, h2, h3 nameC9 rfl⟩

/-- C10: the pipeline is deterministic — it is a pure function of the input
row sequence, so two runs on equal inputs produce equal reports (sheets,
index entries, summaries, sheet order) and equal aggregations. -/
theorem C10_pipeline_deterministic (rows₁ rows₂ : List RawRecord) (h : rows₁ = rows₂) :
    process_faults_file rows₁ = process_faults_file rows₂ ∧
    aggregateBy (fun r => r.duration) (normalize rows₁) =
      aggregateBy (fun r => r.duration) (normalize rows₂) ∧
    aggregateBy (fun r => r.occur) (normalize rows₁) =
      aggregateBy (fun r => r.occur) (normalize rows₂) := by
  subst h
  exact ⟨rfl, rfl, rfl⟩

/-- Witness for C10 at a concrete input. -/
theorem C10_witness :
    process_faults_file rowsC10 = process_faults_file rowsC10 ∧
    aggregateBy (fun r => r.duration) (normalize rowsC10) =
      aggregateBy (fun r => r.duration) (normalize rowsC10) ∧
    aggregateBy (fun r => r.occur) (normalize rowsC10) =
      aggregateBy (fun r => r.occur) (normalize rowsC10) :=
  C10_pipeline_deterministic rowsC10 rowsC10 rfl

end VSPandas
